import Mathlib

/-!
Shallow embedding of the snake game state engine from
`src/Practical_1/snake_game.py` (class `SnakeGame`), together with proofs
of its specified properties.

Modelling conventions:
* Only the state-engine fields of `SnakeGame` are kept; rendering fields
  (canvas, labels, cell size) and the drawing calls are presentation glue
  with no effect on the game state.
* Cells are pairs of integers `(row, col)`, so that an out-of-grid new
  head such as `(-1, 5)` is representable, exactly as in Python.
* The snake list stores the head at the LAST position, as the Python list
  does (`self.snake[-1]` is the head, `self.snake.pop(0)` drops the tail).
* `random.choice(list(available))` is modelled by an oracle index `k`:
  the pick is `available[k % len(available)]`, an arbitrary member of the
  available cells (row-major order; order is irrelevant to every property
  proved here, which only uses membership).
-/

namespace Snake

/-- Movement directions, the four arrow keysyms used by the game. -/
inductive Dir where
  | Up
  | Down
  | Left
  | Right
deriving DecidableEq, Repr

/-- The `opposites` dictionary in `update_direction`. -/
def opposite : Dir → Dir
  | .Up => .Down
  | .Down => .Up
  | .Left => .Right
  | .Right => .Left

/-- A grid cell `(row, col)`; integer coordinates so that out-of-grid
positions are representable. -/
abbrev Cell := Int × Int

/-- The `delta` dictionary in `step`. -/
def delta : Dir → Int × Int
  | .Up => (-1, 0)
  | .Down => (1, 0)
  | .Left => (0, -1)
  | .Right => (0, 1)

/-- The state-engine fields of `SnakeGame`.  The snake's head is the last
list entry, matching the Python list layout. -/
structure GameState where
  rows : Nat
  cols : Nat
  snake : List Cell
  direction : Dir
  next_direction : Dir
  food : Option Cell
  score : Nat
  game_running : Bool
  paused : Bool
deriving DecidableEq, Repr

/-- All cells of the grid, row-major: `(r, c)` for `r < rows`, `c < cols`. -/
def gridCells (g : GameState) : List Cell :=
  (List.range g.rows).flatMap (fun r => (List.range g.cols).map (fun c => (Int.ofNat r, Int.ofNat c)))

/-- The `available` collection in `spawn_food`: grid cells not occupied by
the snake.  Python materialises a set; we keep row-major list order, which
is irrelevant because the pick below is an arbitrary member. -/
def availableCells (g : GameState) : List Cell :=
  (gridCells g).filter (fun p => decide (p ∉ g.snake))

/-- Method `spawn_food`, with `random.choice` modelled by the oracle index
`k`: `self.food = random.choice(list(available)) if available else None`.
When `availableCells` is empty, `k % 0 = k` and the lookup yields `none`;
otherwise the index is in bounds and the food is a member of
`availableCells`. -/
def spawn_food (k : Nat) (g : GameState) : GameState :=
  let avail := availableCells g
  { g with food := avail[k % avail.length]? }

/-- Method `update_direction`: accept the key unless it is the opposite of
the current (committed) direction.  Note the Python code does not consult
`game_running` here. -/
def update_direction (key : Dir) (g : GameState) : GameState :=
  if key ≠ opposite g.direction then { g with next_direction := key } else g

/-- Method `toggle_pause`: early return when the game is not running,
otherwise flip `paused`. -/
def toggle_pause (g : GameState) : GameState :=
  if g.game_running = false then g else { g with paused := !g.paused }

/-- Method `hit_wall`. -/
def hit_wall (g : GameState) (p : Cell) : Bool :=
  decide (p.1 < 0) || decide ((g.rows : Int) ≤ p.1) ||
    decide (p.2 < 0) || decide ((g.cols : Int) ≤ p.2)

/-- Method `game_over` (its `draw` call is presentation only). -/
def game_over (g : GameState) : GameState :=
  { g with game_running := false }

/-- The new head position: `(head_row + delta[0], head_col + delta[1])`. -/
def nextHead (hd : Cell) (d : Dir) : Cell :=
  (hd.1 + (delta d).1, hd.2 + (delta d).2)

/-- Method `step`.  The Python code indexes `self.snake[-1]`, which raises
on an empty snake; that never happens in a reachable state (the invariant
`Inv` below includes nonemptiness), and in that unreachable case we return
the direction-committed state. -/
def step (k : Nat) (g : GameState) : GameState :=
  let g1 := { g with direction := g.next_direction }
  match g1.snake.getLast? with
  | none => g1
  | some hd =>
    let nh := nextHead hd g1.direction
    if hit_wall g1 nh = true ∨ nh ∈ g1.snake then
      game_over g1
    else if g1.food = some nh then
      spawn_food k { g1 with snake := g1.snake ++ [nh], score := g1.score + 1 }
    else
      { g1 with snake := (g1.snake ++ [nh]).tail }

/-- One firing of the timer callback `loop`, minus the re-arm and `draw`:
`step` runs only when the game is running and not paused. -/
def tick (k : Nat) (g : GameState) : GameState :=
  if g.game_running = true ∧ g.paused = false then step k g else g

/-- The buffered new head a tick would commit to: the last snake cell moved
one step in the pending direction (`step` first commits
`direction = next_direction`). -/
def newHead (g : GameState) : Option Cell :=
  g.snake.getLast?.map (fun hd => nextHead hd g.next_direction)

/-- Method `reset_game` (canvas and score-label operations omitted). -/
def reset_game (k : Nat) (g : GameState) : GameState :=
  let start_row : Int := (g.rows / 2 : Nat)
  let start_col : Int := (g.cols / 2 : Nat)
  spawn_food k { g with
    score := 0
    direction := .Right
    next_direction := .Right
    game_running := true
    paused := false
    snake := [(start_row, start_col - 1), (start_row, start_col), (start_row, start_col + 1)] }

/-- The state `__init__` builds just before it calls `reset_game`.  The
`snake`, `food` and `score` fields are first assigned inside `reset_game`;
the placeholders here are all overwritten by it. -/
def initState (rows cols : Nat) : GameState :=
  { rows := rows
    cols := cols
    snake := []
    direction := .Right
    next_direction := .Right
    food := none
    score := 0
    game_running := true
    paused := false }

/-- A freshly constructed game: `__init__` immediately calls `reset_game`. -/
def mkGame (rows cols k : Nat) : GameState :=
  reset_game k (initState rows cols)

/-- The events the key handler and the timer can deliver between resets:
a direction request, a pause toggle, or one timer tick (whose food oracle
is `k`). -/
inductive Op where
  | setDir (d : Dir)
  | togglePause
  | tick (k : Nat)

/-- Dispatch of an event to the corresponding mutator. -/
def applyOp : Op → GameState → GameState
  | .setDir d, g => update_direction d g
  | .togglePause, g => toggle_pause g
  | .tick k, g => tick k g

/-- A whole sequence of events, applied left to right. -/
def applyOps (ops : List Op) (g : GameState) : GameState :=
  ops.foldl (fun g op => applyOp op g) g

/-- States reachable from a reset by any sequence of direction requests,
pause toggles and timer ticks. -/
inductive Reachable (rows cols : Nat) : GameState → Prop where
  | init (k : Nat) : Reachable rows cols (mkGame rows cols k)
  | more (g : GameState) (op : Op) : Reachable rows cols g → Reachable rows cols (applyOp op g)

/-- The state invariant maintained by every operation: the snake is a
nonempty duplicate-free list, and the food (when present) is not on the
snake. -/
def Inv (g : GameState) : Prop :=
  g.snake ≠ [] ∧ g.snake.Nodup ∧ ∀ f : Cell, g.food = some f → f ∉ g.snake

/-! Concrete states used to instantiate the theorems below. -/

/-- A game-over state: a horizontal snake on a 5 by 5 grid with
`game_running = false`. -/
def stoppedState : GameState :=
  { rows := 5
    cols := 5
    snake := [((2 : Int), (1 : Int)), (2, 2), (2, 3)]
    direction := .Right
    next_direction := .Right
    food := some (0, 0)
    score := 0
    game_running := false
    paused := false }

/-- A running state whose pending direction (Right) differs from the
committed one (Up), so that a Left request opposes the pending but not the
current direction. -/
def bufferState : GameState :=
  { rows := 5
    cols := 5
    snake := [((2 : Int), (1 : Int)), (2, 2), (2, 3)]
    direction := .Up
    next_direction := .Right
    food := some (0, 0)
    score := 0
    game_running := true
    paused := false }

/-- The spec scenario of a wall collision: head at `(0,5)` moving Up on a
20 by 20 grid. -/
def wallState : GameState :=
  { rows := 20
    cols := 20
    snake := [((2 : Int), (5 : Int)), (1, 5), (0, 5)]
    direction := .Up
    next_direction := .Up
    food := some (7, 7)
    score := 0
    game_running := true
    paused := false }

/-- A square snake about to chase its own oldest tail cell: head `(1,0)`,
pending direction Up, oldest tail `(0,0)`. -/
def chaseState : GameState :=
  { rows := 3
    cols := 3
    snake := [((0 : Int), (0 : Int)), (0, 1), (1, 1), (1, 0)]
    direction := .Left
    next_direction := .Up
    food := some (2, 2)
    score := 0
    game_running := true
    paused := false }

/-- A 1 by 1 grid fully occupied by the snake: no free cell remains. -/
def fullState : GameState :=
  { rows := 1
    cols := 1
    snake := [((0 : Int), (0 : Int))]
    direction := .Right
    next_direction := .Right
    food := none
    score := 0
    game_running := true
    paused := false }

/-! Basic lemmas about `spawn_food`, `availableCells` and `step`. -/

theorem spawn_food_snake (k : Nat) (g : GameState) : (spawn_food k g).snake = g.snake := rfl

theorem spawn_food_score (k : Nat) (g : GameState) : (spawn_food k g).score = g.score := rfl

theorem spawn_food_running (k : Nat) (g : GameState) :
    (spawn_food k g).game_running = g.game_running := rfl

theorem mem_availableCells (g : GameState) (p : Cell) :
    p ∈ availableCells g ↔ p ∈ gridCells g ∧ p ∉ g.snake := by
  simp [availableCells]

theorem availableCells_eq_nil_iff (g : GameState) :
    availableCells g = [] ↔ ∀ p ∈ gridCells g, p ∈ g.snake := by
  constructor
  · intro h p hp
    by_contra hmem
    have hav : p ∈ availableCells g := (mem_availableCells g p).mpr ⟨hp, hmem⟩
    rw [h] at hav
    cases hav
  · intro h
    apply List.eq_nil_iff_forall_not_mem.mpr
    intro p hp
    obtain ⟨h1, h2⟩ := (mem_availableCells g p).mp hp
    exact h2 (h p h1)

theorem spawn_food_some (k : Nat) (g : GameState) (h : availableCells g ≠ []) :
    ∃ f, (spawn_food k g).food = some f ∧ f ∈ availableCells g := by
  have hlen : 0 < (availableCells g).length := List.length_pos.mpr h
  have hk : k % (availableCells g).length < (availableCells g).length := Nat.mod_lt _ hlen
  have hsome : (spawn_food k g).food = (availableCells g)[k % (availableCells g).length]? := rfl
  rw [List.getElem?_eq_getElem hk] at hsome
  exact ⟨_, hsome, List.getElem_mem hk⟩

theorem spawn_food_none_iff (k : Nat) (g : GameState) :
    (spawn_food k g).food = none ↔ availableCells g = [] := by
  constructor
  · intro h
    by_contra hne
    obtain ⟨f, hf, _⟩ := spawn_food_some k g hne
    rw [h] at hf
    cases hf
  · intro h
    simp [spawn_food, h]

theorem spawn_food_mem (k : Nat) (g : GameState) (f : Cell)
    (hf : (spawn_food k g).food = some f) : f ∈ availableCells g := by
  rcases em (availableCells g = []) with h | h
  · rw [(spawn_food_none_iff k g).mpr h] at hf
    cases hf
  · obtain ⟨f2, hf2, hmem⟩ := spawn_food_some k g h
    have he : f = f2 := Option.some.inj (hf.symm.trans hf2)
    exact he ▸ hmem

theorem spawn_food_not_on_snake (k : Nat) (g : GameState) (f : Cell)
    (hf : (spawn_food k g).food = some f) : f ∉ g.snake :=
  ((mem_availableCells g f).mp (spawn_food_mem k g f hf)).2

theorem step_empty (k : Nat) (g : GameState) (h : g.snake = []) :
    step k g = { g with direction := g.next_direction } := by
  unfold step
  simp [h]

theorem step_collision (k : Nat) (g : GameState) (hd : Cell)
    (hlast : g.snake.getLast? = some hd)
    (hcol : hit_wall g (nextHead hd g.next_direction) = true ∨
      nextHead hd g.next_direction ∈ g.snake) :
    step k g = { g with direction := g.next_direction, game_running := false } := by
  unfold step
  simp only [hlast]
  split
  · rfl
  · rename_i h
    exact absurd hcol h

theorem step_eat (k : Nat) (g : GameState) (hd : Cell)
    (hlast : g.snake.getLast? = some hd)
    (hcol : ¬ (hit_wall g (nextHead hd g.next_direction) = true ∨
      nextHead hd g.next_direction ∈ g.snake))
    (hf : g.food = some (nextHead hd g.next_direction)) :
    step k g = spawn_food k
      { g with
        direction := g.next_direction
        snake := g.snake ++ [nextHead hd g.next_direction]
        score := g.score + 1 } := by
  unfold step
  simp only [hlast]
  split
  · rename_i h
    exact absurd h hcol
  · rfl

theorem step_move (k : Nat) (g : GameState) (hd : Cell)
    (hlast : g.snake.getLast? = some hd)
    (hcol : ¬ (hit_wall g (nextHead hd g.next_direction) = true ∨
      nextHead hd g.next_direction ∈ g.snake))
    (hf : ¬ g.food = some (nextHead hd g.next_direction)) :
    step k g =
      { g with
        direction := g.next_direction
        snake := (g.snake ++ [nextHead hd g.next_direction]).tail } := by
  unfold step
  simp only [hlast]
  split
  · rename_i h
    exact absurd h hcol
  · rfl

/-! Preservation of the invariant by every operation. -/

theorem inv_spawn_food (k : Nat) (g : GameState) (h1 : g.snake ≠ []) (h2 : g.snake.Nodup) :
    Inv (spawn_food k g) :=
  ⟨h1, h2, fun f hf => spawn_food_not_on_snake k g f hf⟩

theorem inv_step (k : Nat) (g : GameState) (h : Inv g) : Inv (step k g) := by
  obtain ⟨hne, hnd, hfood⟩ := h
  cases hlast : g.snake.getLast? with
  | none =>
    rw [step_empty k g (List.getLast?_eq_none_iff.mp hlast)]
    exact ⟨hne, hnd, hfood⟩
  | some hd =>
    by_cases hcol : hit_wall g (nextHead hd g.next_direction) = true ∨
        nextHead hd g.next_direction ∈ g.snake
    · rw [step_collision k g hd hlast hcol]
      exact ⟨hne, hnd, hfood⟩
    · have hmem : nextHead hd g.next_direction ∉ g.snake := fun hm => hcol (Or.inr hm)
      have happ : (g.snake ++ [nextHead hd g.next_direction]).Nodup := by
        rw [List.nodup_append]
        exact ⟨hnd, List.nodup_singleton _, by simpa using hmem⟩
      by_cases hf : g.food = some (nextHead hd g.next_direction)
      · rw [step_eat k g hd hlast hcol hf]
        exact inv_spawn_food k _ (by simp) happ
      · rw [step_move k g hd hlast hcol hf]
        refine ⟨?_, ?_, ?_⟩
        · intro hnil
          have hnil2 : (g.snake ++ [nextHead hd g.next_direction]).tail = [] := hnil
          have hlen : ((g.snake ++ [nextHead hd g.next_direction]).tail).length =
              g.snake.length := by
            simp
          rw [hnil2] at hlen
          exact hne (List.length_eq_zero.mp hlen.symm)
        · exact happ.sublist (List.tail_sublist _)
        · intro f hf2 hmem2
          have hf3 : g.food = some f := hf2
          have hne2 : f ≠ nextHead hd g.next_direction := fun he => hf (he ▸ hf3)
          have hm3 : f ∈ g.snake ++ [nextHead hd g.next_direction] :=
            List.mem_of_mem_tail hmem2
          rcases List.mem_append.mp hm3 with h1 | h1
          · exact hfood f hf3 h1
          · exact hne2 (by simpa using h1)

theorem inv_update_direction (d : Dir) (g : GameState) (h : Inv g) :
    Inv (update_direction d g) := by
  unfold update_direction
  split
  · exact h
  · exact h

theorem inv_toggle_pause (g : GameState) (h : Inv g) : Inv (toggle_pause g) := by
  unfold toggle_pause
  split
  · exact h
  · exact h

theorem inv_tick (k : Nat) (g : GameState) (h : Inv g) : Inv (tick k g) := by
  unfold tick
  split
  · exact inv_step k g h
  · exact h

theorem inv_reset (k : Nat) (g : GameState) : Inv (reset_game k g) := by
  unfold reset_game
  apply inv_spawn_food
  · simp
  · simp [List.nodup_cons]
    omega

theorem inv_applyOp (op : Op) (g : GameState) (h : Inv g) : Inv (applyOp op g) := by
  cases op with
  | setDir d => exact inv_update_direction d g h
  | togglePause => exact inv_toggle_pause g h
  | tick k => exact inv_tick k g h

theorem inv_reachable (rows cols : Nat) (g : GameState) (h : Reachable rows cols g) :
    Inv g := by
  induction h with
  | init k => exact inv_reset k (initState rows cols)
  | more g op hg ih => exact inv_applyOp op g ih

/-! Further helper lemmas shared by the claim theorems. -/

theorem tick_eq_step (k : Nat) (g : GameState)
    (hrun : g.game_running = true) (hp : g.paused = false) : tick k g = step k g := by
  unfold tick
  simp [hrun, hp]

theorem tick_collision (k : Nat) (g : GameState) (nh : Cell)
    (hrun : g.game_running = true) (hp : g.paused = false)
    (hnh : newHead g = some nh)
    (hcol : hit_wall g nh = true ∨ nh ∈ g.snake) :
    tick k g = { g with direction := g.next_direction, game_running := false } := by
  rw [tick_eq_step k g hrun hp]
  unfold newHead at hnh
  cases hlast : g.snake.getLast? with
  | none =>
    rw [hlast] at hnh
    cases hnh
  | some hd =>
    rw [hlast] at hnh
    have he : nextHead hd g.next_direction = nh := by simpa using hnh
    have hcol2 : hit_wall g (nextHead hd g.next_direction) = true ∨
        nextHead hd g.next_direction ∈ g.snake := by
      rw [he]
      exact hcol
    exact step_collision k g hd hlast hcol2

theorem stopped_applyOp (op : Op) (g : GameState) (h : g.game_running = false) :
    (applyOp op g).game_running = false ∧ (applyOp op g).snake = g.snake ∧
    (applyOp op g).score = g.score ∧ (applyOp op g).food = g.food := by
  cases op with
  | setDir d =>
    simp only [applyOp]
    unfold update_direction
    split <;> exact ⟨h, rfl, rfl, rfl⟩
  | togglePause =>
    simp only [applyOp]
    unfold toggle_pause
    split <;> exact ⟨h, rfl, rfl, rfl⟩
  | tick k =>
    simp only [applyOp]
    unfold tick
    split
    · rename_i hcond
      rw [h] at hcond
      exact absurd hcond.1 (by decide)
    · exact ⟨h, rfl, rfl, rfl⟩

theorem stopped_applyOps (ops : List Op) (g : GameState) (h : g.game_running = false) :
    (applyOps ops g).game_running = false ∧ (applyOps ops g).snake = g.snake ∧
    (applyOps ops g).score = g.score ∧ (applyOps ops g).food = g.food := by
  induction ops generalizing g with
  | nil => exact ⟨h, rfl, rfl, rfl⟩
  | cons op ops ih =>
    have h1 := stopped_applyOp op g h
    have h2 := ih (applyOp op g) h1.1
    have he : applyOps (op :: ops) g = applyOps ops (applyOp op g) := rfl
    rw [he]
    exact ⟨h2.1, h2.2.1.trans h1.2.1, h2.2.2.1.trans h1.2.2.1, h2.2.2.2.trans h1.2.2.2⟩

theorem zero_mem_gridCells (g : GameState) (hr : 0 < g.rows) (hc : 0 < g.cols) :
    ((0 : Int), (0 : Int)) ∈ gridCells g := by
  have h1 : (0 : Nat) ∈ List.range g.rows := List.mem_range.mpr hr
  have h2 : (0 : Nat) ∈ List.range g.cols := List.mem_range.mpr hc
  have h3 := List.mem_map_of_mem (fun c : Nat => (Int.ofNat 0, Int.ofNat c)) h2
  exact List.mem_flatMap.mpr ⟨0, h1, h3⟩

/-! Claim theorems. -/

/-- C1, counterexample: with the game stopped (`game_running = false`),
`update_direction Up` still mutates the state (it sets `next_direction`),
so `setDirection` is not a state-preserving no-op after game over. -/
theorem claim_C1_cex : stoppedState.game_running = false ∧
    update_direction Dir.Up stoppedState ≠ stoppedState := by
  decide

/-- C1, amended: when `running` is false, `setDirection` still applies its
usual rule: it changes at most `next_direction` (snake, food, score,
running and paused are untouched, and the committed direction as well),
setting `next_direction` to the request exactly when the request is not
the opposite of the current direction.  It therefore stays observably
harmless after game over, but it is not a full no-op. -/
theorem claim_C1_amended (d : Dir) (g : GameState) (h : g.game_running = false) :
    (update_direction d g).snake = g.snake ∧
    (update_direction d g).food = g.food ∧
    (update_direction d g).score = g.score ∧
    (update_direction d g).game_running = false ∧
    (update_direction d g).paused = g.paused ∧
    (update_direction d g).direction = g.direction ∧
    (update_direction d g).next_direction =
      (if d = opposite g.direction then g.next_direction else d) := by
  unfold update_direction
  by_cases hb : d = opposite g.direction <;> simp [hb, h]

/-- C1, witness: the amended statement at the concrete stopped state and
request Up. -/
theorem claim_C1_amended_w :
    (update_direction Dir.Up stoppedState).snake = stoppedState.snake ∧
    (update_direction Dir.Up stoppedState).food = stoppedState.food ∧
    (update_direction Dir.Up stoppedState).score = stoppedState.score ∧
    (update_direction Dir.Up stoppedState).game_running = false ∧
    (update_direction Dir.Up stoppedState).paused = stoppedState.paused ∧
    (update_direction Dir.Up stoppedState).direction = stoppedState.direction ∧
    (update_direction Dir.Up stoppedState).next_direction =
      (if Dir.Up = opposite stoppedState.direction then stoppedState.next_direction
       else Dir.Up) :=
  claim_C1_amended Dir.Up stoppedState (by decide)

/-- C2: in every state reachable from a reset by any sequence of direction
requests, pause toggles and ticks, the snake cells are pairwise distinct,
and in particular they still are after one more tick. -/
theorem claim_C2_snake_nodup (rows cols k : Nat) (g : GameState)
    (h : Reachable rows cols g) :
    g.snake.Nodup ∧ (tick k g).snake.Nodup :=
  ⟨(inv_reachable rows cols g h).2.1,
   (inv_reachable rows cols (tick k g) (Reachable.more g (Op.tick k) h)).2.1⟩

/-- C2, witness: the freshly reset 10 by 10 game and its first tick. -/
theorem claim_C2_snake_nodup_w :
    (mkGame 10 10 0).snake.Nodup ∧ (tick 0 (mkGame 10 10 0)).snake.Nodup :=
  claim_C2_snake_nodup 10 10 0 (mkGame 10 10 0) (Reachable.init 0)

/-- C5: `setDirection` sets `pendingDirection` to the request unless the
request is the geometric opposite of the current committed direction, in
which case the state is unchanged; and a request that is the opposite of
the pending direction but not of the current one is accepted. -/
theorem claim_C5_set_direction (d : Dir) (g : GameState) :
    update_direction d g =
      (if d = opposite g.direction then g else { g with next_direction := d }) ∧
    (d = opposite g.next_direction → d ≠ opposite g.direction →
      (update_direction d g).next_direction = d) := by
  constructor
  · unfold update_direction
    by_cases hb : d = opposite g.direction <;> simp [hb]
  · intro _ h2
    unfold update_direction
    simp [h2]

/-- C5, witness: in `bufferState` the request Left opposes the pending
direction (Right) but not the current one (Up) and is accepted. -/
theorem claim_C5_set_direction_w :
    (update_direction Dir.Left bufferState).next_direction = Dir.Left :=
  (claim_C5_set_direction Dir.Left bufferState).2 (by decide) (by decide)

/-- C4: on every tick taken while running and unpaused that does not end
the game, the snake length does not decrease; it grows by exactly one
exactly when the new head lands on the food cell, and is unchanged on
every other surviving tick. -/
theorem claim_C4_growth (k : Nat) (g : GameState)
    (hrun : g.game_running = true) (hp : g.paused = false) (hne : g.snake ≠ [])
    (hsurv : (tick k g).game_running = true) :
    g.snake.length ≤ (tick k g).snake.length ∧
    ((∃ nh, newHead g = some nh ∧ g.food = some nh) →
      (tick k g).snake.length = g.snake.length + 1) ∧
    ((¬ ∃ nh, newHead g = some nh ∧ g.food = some nh) →
      (tick k g).snake.length = g.snake.length) := by
  have htick : tick k g = step k g := tick_eq_step k g hrun hp
  rw [htick] at hsurv ⊢
  cases hlast : g.snake.getLast? with
  | none => exact absurd (List.getLast?_eq_none_iff.mp hlast) hne
  | some hd =>
    have hnhEq : newHead g = some (nextHead hd g.next_direction) := by
      unfold newHead
      rw [hlast]
      rfl
    by_cases hcol : hit_wall g (nextHead hd g.next_direction) = true ∨
        nextHead hd g.next_direction ∈ g.snake
    · rw [step_collision k g hd hlast hcol] at hsurv
      exact absurd hsurv (by simp)
    · by_cases hf : g.food = some (nextHead hd g.next_direction)
      · have hlen : (step k g).snake.length = g.snake.length + 1 := by
          rw [step_eat k g hd hlast hcol hf, spawn_food_snake]
          simp
        refine ⟨by omega, fun _ => hlen, fun hno => ?_⟩
        exact absurd ⟨nextHead hd g.next_direction, hnhEq, hf⟩ hno
      · have hlen : (step k g).snake.length = g.snake.length := by
          rw [step_move k g hd hlast hcol hf]
          simp
        refine ⟨by omega, fun hex => ?_, fun _ => hlen⟩
        obtain ⟨nh, hnh2, hfood2⟩ := hex
        have hEq : nh = nextHead hd g.next_direction :=
          Option.some.inj (hnh2.symm.trans hnhEq)
        rw [hEq] at hfood2
        exact absurd hfood2 hf

/-- C4, witness: the first tick of a fresh 10 by 10 game survives with no
food eaten, and the length stays 3. -/
theorem claim_C4_growth_w :
    (mkGame 10 10 0).snake.length ≤ (tick 0 (mkGame 10 10 0)).snake.length ∧
    ((∃ nh, newHead (mkGame 10 10 0) = some nh ∧ (mkGame 10 10 0).food = some nh) →
      (tick 0 (mkGame 10 10 0)).snake.length = (mkGame 10 10 0).snake.length + 1) ∧
    ((¬ ∃ nh, newHead (mkGame 10 10 0) = some nh ∧ (mkGame 10 10 0).food = some nh) →
      (tick 0 (mkGame 10 10 0)).snake.length = (mkGame 10 10 0).snake.length) :=
  claim_C4_growth 0 (mkGame 10 10 0) (by decide) (by decide) (by decide) (by decide)

/-- C6: on a tick whose new head hits a wall or an existing snake cell,
`running` becomes false and nothing else changes except the direction
commit of step 1: snake, score and food are exactly as before. -/
theorem claim_C6_collision_frame (k : Nat) (g : GameState) (nh : Cell)
    (hrun : g.game_running = true) (hp : g.paused = false)
    (hnh : newHead g = some nh)
    (hcol : hit_wall g nh = true ∨ nh ∈ g.snake) :
    tick k g = { g with direction := g.next_direction, game_running := false } :=
  tick_collision k g nh hrun hp hnh hcol

/-- C6, witness: the spec scenario of a head at `(0,5)` moving Up, whose
new head `(-1,5)` is outside the grid. -/
theorem claim_C6_collision_frame_w :
    tick 0 wallState =
      { wallState with direction := wallState.next_direction, game_running := false } :=
  claim_C6_collision_frame 0 wallState ((-1 : Int), (5 : Int))
    (by decide) (by decide) (by decide) (Or.inl (by decide))

/-- C7: once `running` is false it stays false under every sequence of
direction requests, pause toggles and ticks, the snake, score and food are
never mutated by such a sequence, and a further tick is a complete no-op. -/
theorem claim_C7_game_over_latch (g : GameState) (ops : List Op) (k : Nat)
    (h : g.game_running = false) :
    (applyOps ops g).game_running = false ∧
    (applyOps ops g).snake = g.snake ∧
    (applyOps ops g).score = g.score ∧
    (applyOps ops g).food = g.food ∧
    tick k (applyOps ops g) = applyOps ops g := by
  obtain ⟨h1, h2, h3, h4⟩ := stopped_applyOps ops g h
  refine ⟨h1, h2, h3, h4, ?_⟩
  unfold tick
  simp [h1]

/-- C7, witness: from the concrete stopped state, a direction request, a
pause toggle and a tick change none of the observable fields. -/
theorem claim_C7_game_over_latch_w :
    (applyOps [Op.setDir Dir.Up, Op.togglePause, Op.tick 3] stoppedState).game_running
        = false ∧
    (applyOps [Op.setDir Dir.Up, Op.togglePause, Op.tick 3] stoppedState).snake
        = stoppedState.snake ∧
    (applyOps [Op.setDir Dir.Up, Op.togglePause, Op.tick 3] stoppedState).score
        = stoppedState.score ∧
    (applyOps [Op.setDir Dir.Up, Op.togglePause, Op.tick 3] stoppedState).food
        = stoppedState.food ∧
    tick 5 (applyOps [Op.setDir Dir.Up, Op.togglePause, Op.tick 3] stoppedState)
        = applyOps [Op.setDir Dir.Up, Op.togglePause, Op.tick 3] stoppedState :=
  claim_C7_game_over_latch stoppedState [Op.setDir Dir.Up, Op.togglePause, Op.tick 3] 5
    (by decide)

/-- C10: when the buffered new head equals the snake's oldest tail cell,
the tick ends the game: the self-collision check runs against the full
pre-move body, before any tail removal. -/
theorem claim_C10_tail_collision (k : Nat) (g : GameState) (t : Cell)
    (hrun : g.game_running = true) (hp : g.paused = false)
    (ht : g.snake.head? = some t) (hnh : newHead g = some t) :
    (tick k g).game_running = false ∧
    tick k g = { g with direction := g.next_direction, game_running := false } := by
  have hmem : t ∈ g.snake := by
    cases hs : g.snake with
    | nil =>
      rw [hs] at ht
      cases ht
    | cons a l =>
      rw [hs] at ht
      have ha : a = t := by simpa using ht
      rw [← ha]
      exact List.mem_cons_self a l
  have he := tick_collision k g t hrun hp hnh (Or.inr hmem)
  constructor
  · rw [he]
  · exact he

/-- C10, witness: the square snake of `chaseState` moving Up onto its own
oldest tail cell `(0,0)` dies, although a non-eating tick would have
vacated that cell. -/
theorem claim_C10_tail_collision_w :
    (tick 0 chaseState).game_running = false ∧
    tick 0 chaseState =
      { chaseState with direction := chaseState.next_direction, game_running := false } :=
  claim_C10_tail_collision 0 chaseState ((0 : Int), (0 : Int))
    (by decide) (by decide) (by decide) (by decide)

/-- C3: in every reachable state the food, when present, is not on any
snake cell; immediately after `spawn_food` the food is on a grid cell off
the snake whenever a free cell exists, and the food is absent exactly when
the snake occupies every grid cell. -/
theorem claim_C3_food_placement (rows cols k k2 : Nat) (g g2 g3 : GameState)
    (h : Reachable rows cols g) (hfree : availableCells g2 ≠ []) :
    (∀ f : Cell, g.food = some f → f ∉ g.snake) ∧
    (∃ f, (spawn_food k g2).food = some f ∧ f ∈ gridCells g2 ∧ f ∉ g2.snake) ∧
    ((spawn_food k2 g3).food = none ↔ ∀ c ∈ gridCells g3, c ∈ g3.snake) := by
  refine ⟨(inv_reachable rows cols g h).2.2, ?_, ?_⟩
  · obtain ⟨f, hf, hmem⟩ := spawn_food_some k g2 hfree
    obtain ⟨h1, h2⟩ := (mem_availableCells g2 f).mp hmem
    exact ⟨f, hf, h1, h2⟩
  · rw [spawn_food_none_iff, availableCells_eq_nil_iff]

/-- C3, witness: the fresh 10 by 10 game (which has free cells), and the
fully occupied 1 by 1 grid of `fullState` for the absence case. -/
theorem claim_C3_food_placement_w :
    (∀ f : Cell, (mkGame 10 10 0).food = some f → f ∉ (mkGame 10 10 0).snake) ∧
    (∃ f, (spawn_food 0 (mkGame 10 10 0)).food = some f ∧
      f ∈ gridCells (mkGame 10 10 0) ∧ f ∉ (mkGame 10 10 0).snake) ∧
    ((spawn_food 0 fullState).food = none ↔
      ∀ c ∈ gridCells fullState, c ∈ fullState.snake) :=
  claim_C3_food_placement 10 10 0 0 (mkGame 10 10 0) (mkGame 10 10 0) fullState
    (Reachable.init 0) (by decide)

/-- C8: for rows and cols at least 3, a reset establishes the canonical
start state: three horizontally adjacent snake cells in the middle row
around the centre column with the head at centre+1, both directions Right,
score 0, running, unpaused, and food spawned off the snake. -/
theorem claim_C8_reset (k : Nat) (g : GameState) (hr : 3 ≤ g.rows) (hc : 3 ≤ g.cols) :
    (reset_game k g).snake =
      [(((g.rows / 2 : Nat) : Int), ((g.cols / 2 : Nat) : Int) - 1),
       (((g.rows / 2 : Nat) : Int), ((g.cols / 2 : Nat) : Int)),
       (((g.rows / 2 : Nat) : Int), ((g.cols / 2 : Nat) : Int) + 1)] ∧
    (reset_game k g).snake.getLast? =
      some (((g.rows / 2 : Nat) : Int), ((g.cols / 2 : Nat) : Int) + 1) ∧
    (reset_game k g).direction = Dir.Right ∧
    (reset_game k g).next_direction = Dir.Right ∧
    (reset_game k g).score = 0 ∧
    (reset_game k g).game_running = true ∧
    (reset_game k g).paused = false ∧
    ∃ f, (reset_game k g).food = some f ∧ f ∉ (reset_game k g).snake := by
  refine ⟨rfl, rfl, rfl, rfl, rfl, rfl, rfl, ?_⟩
  set S : GameState :=
    { g with
      score := 0
      direction := Dir.Right
      next_direction := Dir.Right
      game_running := true
      paused := false
      snake := [(((g.rows / 2 : Nat) : Int), ((g.cols / 2 : Nat) : Int) - 1),
                (((g.rows / 2 : Nat) : Int), ((g.cols / 2 : Nat) : Int)),
                (((g.rows / 2 : Nat) : Int), ((g.cols / 2 : Nat) : Int) + 1)] }
    with hS
  have hres : reset_game k g = spawn_food k S := rfl
  rw [hres]
  have h00mem : ((0 : Int), (0 : Int)) ∈ availableCells S := by
    rw [mem_availableCells]
    constructor
    · exact zero_mem_gridCells S (show 0 < g.rows by omega) (show 0 < g.cols by omega)
    · show ((0 : Int), (0 : Int)) ∉
        [(((g.rows / 2 : Nat) : Int), ((g.cols / 2 : Nat) : Int) - 1),
         (((g.rows / 2 : Nat) : Int), ((g.cols / 2 : Nat) : Int)),
         (((g.rows / 2 : Nat) : Int), ((g.cols / 2 : Nat) : Int) + 1)]
      intro hmem
      simp only [List.mem_cons, List.not_mem_nil, Prod.mk.injEq, or_false] at hmem
      omega
  have hne2 : availableCells S ≠ [] := List.ne_nil_of_mem h00mem
  obtain ⟨f, hf, hfmem⟩ := spawn_food_some k S hne2
  exact ⟨f, hf, ((mem_availableCells S f).mp hfmem).2⟩

/-- C8, witness: the 10 by 10 construction state, reset with oracle 0. -/
theorem claim_C8_reset_w :
    (reset_game 0 (initState 10 10)).snake =
      [((((initState 10 10).rows / 2 : Nat) : Int),
          (((initState 10 10).cols / 2 : Nat) : Int) - 1),
       ((((initState 10 10).rows / 2 : Nat) : Int),
          (((initState 10 10).cols / 2 : Nat) : Int)),
       ((((initState 10 10).rows / 2 : Nat) : Int),
          (((initState 10 10).cols / 2 : Nat) : Int) + 1)] ∧
    (reset_game 0 (initState 10 10)).snake.getLast? =
      some ((((initState 10 10).rows / 2 : Nat) : Int),
        (((initState 10 10).cols / 2 : Nat) : Int) + 1) ∧
    (reset_game 0 (initState 10 10)).direction = Dir.Right ∧
    (reset_game 0 (initState 10 10)).next_direction = Dir.Right ∧
    (reset_game 0 (initState 10 10)).score = 0 ∧
    (reset_game 0 (initState 10 10)).game_running = true ∧
    (reset_game 0 (initState 10 10)).paused = false ∧
    ∃ f, (reset_game 0 (initState 10 10)).food = some f ∧
      f ∉ (reset_game 0 (initState 10 10)).snake :=
  claim_C8_reset 0 (initState 10 10) (by decide) (by decide)

/-- C9: `togglePause` flips `paused` exactly when the game is running and
changes nothing else; when `running` is false the whole state (hence
`paused`) is unchanged. -/
theorem claim_C9_toggle_pause (g : GameState) :
    toggle_pause g =
      (if g.game_running = true then { g with paused := !g.paused } else g) := by
  unfold toggle_pause
  cases hb : g.game_running <;> simp [hb]

end Snake
